import Mathlib

/-!
Verification development for the TorchSWE linear-reconstruction kernel
(src/torchswe/kernels/cupy_reconstruction.pyx).

Arrays are modelled as total functions from integer indices to rationals;
the interior extents (ny, nx) and the ghost-cell count (ngh) are carried
as data of the state object, mirroring the shape information of the CuPy
arrays.  Elementwise GPU kernels become pure pointwise functions; the
in-place pipeline of reconstruct becomes a chain of staged definitions,
one per kernel launch, in the launch order of the source.  Floating-point
arithmetic is modelled by exact rational arithmetic; division by zero
yields 0 (the Lean convention for Rat).
-/

/-- Pointwise body of the CuPy elementwise kernel minmod_slope_kernel:
    T denominator = s3 - s2; slp = (s2 - s1) / denominator;
    slp = min(slp*theta, (1 + slp) / 2); slp = min(slp, theta);
    slp = max(slp, 0.); slp *= denominator; slp /= 2.0. -/
def minmod_slope_kernel (s1 s2 s3 theta : ℚ) : ℚ :=
  let denominator := s3 - s2
  let slp0 := (s2 - s1) / denominator
  let slp1 := min (slp0 * theta) ((1 + slp0) / 2)
  let slp2 := min slp1 theta
  let slp3 := max slp2 0
  slp3 * denominator / 2

/-- Pointwise body of fix_rounding_err_kernel: if (depth < tol) ans = 0.0;
    the output buffer aliases the input, so an unassigned output keeps the
    old value depth. -/
def fix_rounding_err_kernel (depth tol : ℚ) : ℚ :=
  if depth < tol then 0 else depth

/-- Pointwise body of recnstrt_face_vel_kernel: if (depth < drytol)
    then u = v = 0 else u = hu / depth, v = hv / depth. -/
def recnstrt_face_vel_kernel (depth hu hv drytol : ℚ) : ℚ × ℚ :=
  if depth < drytol then (0, 0) else (hu / depth, hv / depth)

/-- Pointwise body of recnstrt_face_conservatives:
    w = h + b; hu = h * u; hv = h * v. -/
def recnstrt_face_conservatives (h u v b : ℚ) : ℚ × ℚ × ℚ :=
  (h + b, h * u, h * v)

/-- Pointwise body of the internal negative-depth corrector
    correct_neg_depth_internal: reads (hc, hl, hr), writes (nhl, nhr)
    in place over the buffers holding hl and hr:
    if (hl < 0) { nhl = 0; nhr = hc * 2; }
    else if (hr < 0) { nhr = 0; nhl = hc * 2; }
    otherwise the outputs keep the old values (hl, hr). -/
def correct_neg_depth_internal (hc hl hr : ℚ) : ℚ × ℚ :=
  if hl < 0 then (0, hc * 2)
  else if hr < 0 then (hc * 2, 0)
  else (hl, hr)

/-- Pointwise body of the boundary corrector correct_neg_depth_edge:
    if (h < 0) nh = 0; in-place, so otherwise the old value h is kept. -/
def correct_neg_depth_edge (h : ℚ) : ℚ :=
  if h < 0 then 0 else h

/-- The three read-only topography arrays supplied by runtime.topo:
    bed elevation at cell centers, x-face centers and y-face centers. -/
structure Topography where
  centers : ℤ → ℤ → ℚ
  xfcenters : ℤ → ℤ → ℚ
  yfcenters : ℤ → ℤ → ℚ

/-- The solver state object (torchswe.utils.data.States) as used by
    reconstruct.  Q is the ghost-padded conservative array (component,
    row, column); H the cell-center depth; xmQ/xpQ/ymQ/ypQ and
    xmU/xpU/ypU/ymU the conservative and non-conservative buffers of the
    four directional face sides (states.face.x.minus.Q and so on).
    ngh is the ghost-cell count; ny and nx mirror the interior extents
    derived in the source from the shape of Q (ny = Q.shape[1] - 2*ngh,
    nx = Q.shape[2] - 2*ngh).
    Uc is the cell-center non-conservative cache.  Modelled from the
    spec: the States class itself is outside the sources under study;
    the spec describes a non-conservative state U of 3 fields (depth h,
    velocity u, velocity v) at cell centers.  The reconstruct source
    writes only states.H among the center quantities, so Uc appears here
    solely to express frame properties about the center velocities. -/
structure States where
  ngh : ℤ
  ny : ℤ
  nx : ℤ
  Q : Fin 3 → ℤ → ℤ → ℚ
  H : ℤ → ℤ → ℚ
  Uc : Fin 3 → ℤ → ℤ → ℚ
  xmQ : Fin 3 → ℤ → ℤ → ℚ
  xpQ : Fin 3 → ℤ → ℤ → ℚ
  ymQ : Fin 3 → ℤ → ℤ → ℚ
  ypQ : Fin 3 → ℤ → ℤ → ℚ
  xmU : Fin 3 → ℤ → ℤ → ℚ
  xpU : Fin 3 → ℤ → ℤ → ℚ
  ymU : Fin 3 → ℤ → ℤ → ℚ
  ypU : Fin 3 → ℤ → ℤ → ℚ

/-- The tunable parameters read inside reconstruct:
    theta = config.params.theta, drytol = config.params.drytol,
    tol = runtime.tol. -/
structure Params where
  theta : ℚ
  drytol : ℚ
  tol : ℚ

/-- Stage 1, x-slopes: slpx = minmod_slope_kernel(Q[:, ybg:yed, xbg-2:xed],
    Q[:, ybg:yed, xbg-1:xed+1], Q[:, ybg:yed, xbg:xed+2], theta), with
    ybg = xbg = ngh; element (c, j, i) of slpx, of shape (3, ny, nx+2). -/
def slpx (s : States) (p : Params) (c : Fin 3) (j i : ℤ) : ℚ :=
  minmod_slope_kernel (s.Q c (s.ngh + j) (s.ngh - 2 + i))
    (s.Q c (s.ngh + j) (s.ngh - 1 + i)) (s.Q c (s.ngh + j) (s.ngh + i)) p.theta

/-- Stage 1, y-slopes: slpy = minmod_slope_kernel(Q[:, ybg-2:yed, xbg:xed],
    Q[:, ybg-1:yed+1, xbg:xed], Q[:, ybg:yed+2, xbg:xed], theta);
    element (c, j, i) of slpy, of shape (3, ny+2, nx). -/
def slpy (s : States) (p : Params) (c : Fin 3) (j i : ℤ) : ℚ :=
  minmod_slope_kernel (s.Q c (s.ngh - 2 + j) (s.ngh + i))
    (s.Q c (s.ngh - 1 + j) (s.ngh + i)) (s.Q c (s.ngh + j) (s.ngh + i)) p.theta

/-- Stage 2: cupy.add(Q[:, ybg:yed, xbg-1:xed], slpx[:, :, :nx+1], out=xmQ);
    element (c, j, i) of the x-minus face conservatives, shape (3, ny, nx+1). -/
def xmQ2 (s : States) (p : Params) (c : Fin 3) (j i : ℤ) : ℚ :=
  s.Q c (s.ngh + j) (s.ngh - 1 + i) + slpx s p c j i

/-- Stage 2: cupy.subtract(Q[:, ybg:yed, xbg:xed+1], slpx[:, :, 1:], out=xpQ). -/
def xpQ2 (s : States) (p : Params) (c : Fin 3) (j i : ℤ) : ℚ :=
  s.Q c (s.ngh + j) (s.ngh + i) - slpx s p c j (i + 1)

/-- Stage 2: cupy.add(Q[:, ybg-1:yed, xbg:xed], slpy[:, :ny+1, :], out=ymQ);
    shape (3, ny+1, nx). -/
def ymQ2 (s : States) (p : Params) (c : Fin 3) (j i : ℤ) : ℚ :=
  s.Q c (s.ngh - 1 + j) (s.ngh + i) + slpy s p c j i

/-- Stage 2: cupy.subtract(Q[:, ybg:yed+1, xbg:xed], slpy[:, 1:, :], out=ypQ). -/
def ypQ2 (s : States) (p : Params) (c : Fin 3) (j i : ℤ) : ℚ :=
  s.Q c (s.ngh + j) (s.ngh + i) - slpy s p c (j + 1) i

/-- Step 1 of the depth stage:
    cupy.subtract(Q[0, ybg:yed, xbg:xed], topo.centers, out=H). -/
def Hnew (s : States) (t : Topography) (j i : ℤ) : ℚ :=
  s.Q 0 (s.ngh + j) (s.ngh + i) - t.centers j i

/-- cupy.subtract(xmQ[0], topo.xfcenters, out=xmU[0]): raw x-minus face depth. -/
def xm0raw (s : States) (t : Topography) (p : Params) (j i : ℤ) : ℚ :=
  xmQ2 s p 0 j i - t.xfcenters j i

/-- cupy.subtract(xpQ[0], topo.xfcenters, out=xpU[0]): raw x-plus face depth. -/
def xp0raw (s : States) (t : Topography) (p : Params) (j i : ℤ) : ℚ :=
  xpQ2 s p 0 j i - t.xfcenters j i

/-- cupy.subtract(ymQ[0], topo.yfcenters, out=ymU[0]): raw y-minus face depth. -/
def ym0raw (s : States) (t : Topography) (p : Params) (j i : ℤ) : ℚ :=
  ymQ2 s p 0 j i - t.yfcenters j i

/-- cupy.subtract(ypQ[0], topo.yfcenters, out=ypU[0]): raw y-plus face depth. -/
def yp0raw (s : States) (t : Topography) (p : Params) (j i : ℤ) : ℚ :=
  ypQ2 s p 0 j i - t.yfcenters j i

/-- Internal x-correction, effect on the x-plus depth buffer:
    correct_neg_depth_internal(H, xpU[0, :, :nx], xmU[0, :, 1:], ...);
    element (j, i) of the launch, writing the first output back into
    column i of xpU[0] for 0 <= i < nx; columns outside the slice keep
    the raw value. -/
def xp0int (s : States) (t : Topography) (p : Params) (j i : ℤ) : ℚ :=
  if 0 ≤ i ∧ i < s.nx then
    (correct_neg_depth_internal (Hnew s t j i) (xp0raw s t p j i)
      (xm0raw s t p j (i + 1))).1
  else xp0raw s t p j i

/-- Internal x-correction, effect on the x-minus depth buffer: the second
    output of the same launch is written into column i of xmU[0] for
    1 <= i <= nx (the slice xmU[0, :, 1:]), paired with cell i - 1. -/
def xm0int (s : States) (t : Topography) (p : Params) (j i : ℤ) : ℚ :=
  if 1 ≤ i ∧ i ≤ s.nx then
    (correct_neg_depth_internal (Hnew s t j (i - 1)) (xp0raw s t p j (i - 1))
      (xm0raw s t p j i)).2
  else xm0raw s t p j i

/-- Edge correction correct_neg_depth_edge(xpU[0, :, nx], ...): clamp of
    the outermost x-plus column. -/
def xp0fixed (s : States) (t : Topography) (p : Params) (j i : ℤ) : ℚ :=
  if i = s.nx then correct_neg_depth_edge (xp0int s t p j i)
  else xp0int s t p j i

/-- Edge correction correct_neg_depth_edge(xmU[0, :, 0], ...): clamp of
    the outermost x-minus column. -/
def xm0fixed (s : States) (t : Topography) (p : Params) (j i : ℤ) : ℚ :=
  if i = 0 then correct_neg_depth_edge (xm0int s t p j i)
  else xm0int s t p j i

/-- Internal y-correction, effect on the y-plus depth buffer:
    correct_neg_depth_internal(H, ypU[0, :ny, :], ymU[0, 1:, :], ...);
    rows 0 <= j < ny of ypU[0] receive the first output. -/
def yp0int (s : States) (t : Topography) (p : Params) (j i : ℤ) : ℚ :=
  if 0 ≤ j ∧ j < s.ny then
    (correct_neg_depth_internal (Hnew s t j i) (yp0raw s t p j i)
      (ym0raw s t p (j + 1) i)).1
  else yp0raw s t p j i

/-- Internal y-correction, effect on the y-minus depth buffer: rows
    1 <= j <= ny of ymU[0] (the slice ymU[0, 1:, :]) receive the second
    output, paired with cell row j - 1. -/
def ym0int (s : States) (t : Topography) (p : Params) (j i : ℤ) : ℚ :=
  if 1 ≤ j ∧ j ≤ s.ny then
    (correct_neg_depth_internal (Hnew s t (j - 1) i) (yp0raw s t p (j - 1) i)
      (ym0raw s t p j i)).2
  else ym0raw s t p j i

/-- Edge correction correct_neg_depth_edge(ypU[0, ny, :], ...). -/
def yp0fixed (s : States) (t : Topography) (p : Params) (j i : ℤ) : ℚ :=
  if j = s.ny then correct_neg_depth_edge (yp0int s t p j i)
  else yp0int s t p j i

/-- Edge correction correct_neg_depth_edge(ymU[0, 0, :], ...). -/
def ym0fixed (s : States) (t : Topography) (p : Params) (j i : ℤ) : ℚ :=
  if j = 0 then correct_neg_depth_edge (ym0int s t p j i)
  else ym0int s t p j i

/-- Rounding-error fix _fix_rounding_err_kernel(xmU[0], tol, xmU[0]). -/
def xm0final (s : States) (t : Topography) (p : Params) (j i : ℤ) : ℚ :=
  fix_rounding_err_kernel (xm0fixed s t p j i) p.tol

/-- Rounding-error fix _fix_rounding_err_kernel(xpU[0], tol, xpU[0]). -/
def xp0final (s : States) (t : Topography) (p : Params) (j i : ℤ) : ℚ :=
  fix_rounding_err_kernel (xp0fixed s t p j i) p.tol

/-- Rounding-error fix _fix_rounding_err_kernel(ymU[0], tol, ymU[0]). -/
def ym0final (s : States) (t : Topography) (p : Params) (j i : ℤ) : ℚ :=
  fix_rounding_err_kernel (ym0fixed s t p j i) p.tol

/-- Rounding-error fix _fix_rounding_err_kernel(ypU[0], tol, ypU[0]). -/
def yp0final (s : States) (t : Topography) (p : Params) (j i : ℤ) : ℚ :=
  fix_rounding_err_kernel (yp0fixed s t p j i) p.tol

/-- Velocity stage _recnstrt_face_vel_kernel(xmU[0], xmQ[1], xmQ[2], drytol,
    xmU[1], xmU[2]): reads the corrected depth and the stage-2 face momenta. -/
def xmVel (s : States) (t : Topography) (p : Params) (j i : ℤ) : ℚ × ℚ :=
  recnstrt_face_vel_kernel (xm0final s t p j i) (xmQ2 s p 1 j i)
    (xmQ2 s p 2 j i) p.drytol

/-- Velocity stage for the x-plus faces. -/
def xpVel (s : States) (t : Topography) (p : Params) (j i : ℤ) : ℚ × ℚ :=
  recnstrt_face_vel_kernel (xp0final s t p j i) (xpQ2 s p 1 j i)
    (xpQ2 s p 2 j i) p.drytol

/-- Velocity stage for the y-minus faces. -/
def ymVel (s : States) (t : Topography) (p : Params) (j i : ℤ) : ℚ × ℚ :=
  recnstrt_face_vel_kernel (ym0final s t p j i) (ymQ2 s p 1 j i)
    (ymQ2 s p 2 j i) p.drytol

/-- Velocity stage for the y-plus faces. -/
def ypVel (s : States) (t : Topography) (p : Params) (j i : ℤ) : ℚ × ℚ :=
  recnstrt_face_vel_kernel (yp0final s t p j i) (ypQ2 s p 1 j i)
    (ypQ2 s p 2 j i) p.drytol

/-- The final x-minus non-conservative buffer xmU: component 0 is the
    corrected depth, components 1 and 2 the reconstructed velocities. -/
def xmUfinal (s : States) (t : Topography) (p : Params) (c : Fin 3) (j i : ℤ) : ℚ :=
  if c = 0 then xm0final s t p j i
  else if c = 1 then (xmVel s t p j i).1
  else (xmVel s t p j i).2

/-- The final x-plus non-conservative buffer xpU. -/
def xpUfinal (s : States) (t : Topography) (p : Params) (c : Fin 3) (j i : ℤ) : ℚ :=
  if c = 0 then xp0final s t p j i
  else if c = 1 then (xpVel s t p j i).1
  else (xpVel s t p j i).2

/-- The final y-minus non-conservative buffer ymU. -/
def ymUfinal (s : States) (t : Topography) (p : Params) (c : Fin 3) (j i : ℤ) : ℚ :=
  if c = 0 then ym0final s t p j i
  else if c = 1 then (ymVel s t p j i).1
  else (ymVel s t p j i).2

/-- The final y-plus non-conservative buffer ypU. -/
def ypUfinal (s : States) (t : Topography) (p : Params) (c : Fin 3) (j i : ℤ) : ℚ :=
  if c = 0 then yp0final s t p j i
  else if c = 1 then (ypVel s t p j i).1
  else (ypVel s t p j i).2

/-- Recombination _recnstrt_face_conservatives(xmU[0], xmU[1], xmU[2],
    topo.xfcenters, xmQ[0], xmQ[1], xmQ[2]): overwrites all three
    components of xmQ from the corrected primitives. -/
def xmQfinal (s : States) (t : Topography) (p : Params) (c : Fin 3) (j i : ℤ) : ℚ :=
  let r := recnstrt_face_conservatives (xmUfinal s t p 0 j i)
    (xmUfinal s t p 1 j i) (xmUfinal s t p 2 j i) (t.xfcenters j i)
  if c = 0 then r.1 else if c = 1 then r.2.1 else r.2.2

/-- Recombination for the x-plus conservative buffer xpQ. -/
def xpQfinal (s : States) (t : Topography) (p : Params) (c : Fin 3) (j i : ℤ) : ℚ :=
  let r := recnstrt_face_conservatives (xpUfinal s t p 0 j i)
    (xpUfinal s t p 1 j i) (xpUfinal s t p 2 j i) (t.xfcenters j i)
  if c = 0 then r.1 else if c = 1 then r.2.1 else r.2.2

/-- Recombination for the y-minus conservative buffer ymQ. -/
def ymQfinal (s : States) (t : Topography) (p : Params) (c : Fin 3) (j i : ℤ) : ℚ :=
  let r := recnstrt_face_conservatives (ymUfinal s t p 0 j i)
    (ymUfinal s t p 1 j i) (ymUfinal s t p 2 j i) (t.yfcenters j i)
  if c = 0 then r.1 else if c = 1 then r.2.1 else r.2.2

/-- Recombination for the y-plus conservative buffer ypQ. -/
def ypQfinal (s : States) (t : Topography) (p : Params) (c : Fin 3) (j i : ℤ) : ℚ :=
  let r := recnstrt_face_conservatives (ypUfinal s t p 0 j i)
    (ypUfinal s t p 1 j i) (ypUfinal s t p 2 j i) (t.yfcenters j i)
  if c = 0 then r.1 else if c = 1 then r.2.1 else r.2.2

/-- The full reconstruct call: updates H, the four face conservative
    buffers and the four face non-conservative buffers in place and
    returns the same state object; Q, Uc and the shape data are left
    untouched, and the topography t is read-only throughout (no stage
    above takes it as an output). -/
def reconstruct (s : States) (t : Topography) (p : Params) : States :=
  { s with
    H := Hnew s t
    xmQ := xmQfinal s t p
    xpQ := xpQfinal s t p
    ymQ := ymQfinal s t p
    ypQ := ypQfinal s t p
    xmU := xmUfinal s t p
    xpU := xpUfinal s t p
    ymU := ymUfinal s t p
    ypU := ypUfinal s t p }

/-- Concrete 1x1-interior state with two ghost layers and all buffers zero;
    in particular all cell-center conservative values coincide. -/
def sZ : States where
  ngh := 2
  ny := 1
  nx := 1
  Q := fun _ _ _ => 0
  H := fun _ _ => 0
  Uc := fun _ _ _ => 0
  xmQ := fun _ _ _ => 0
  xpQ := fun _ _ _ => 0
  ymQ := fun _ _ _ => 0
  ypQ := fun _ _ _ => 0
  xmU := fun _ _ _ => 0
  xpU := fun _ _ _ => 0
  ymU := fun _ _ _ => 0
  ypU := fun _ _ _ => 0

/-- Concrete all-wet state: every conservative value equals 1. -/
def sW : States := { sZ with Q := fun _ _ _ => 1 }

/-- Concrete state with a shallow uniform surface elevation of 1/2. -/
def sH : States := { sZ with Q := fun _ _ _ => 1/2 }

/-- Like sZ but with the center non-conservative cache holding 42. -/
def sU42 : States := { sZ with Uc := fun _ _ _ => 42 }

/-- Like sZ but with the center non-conservative cache holding 7;
    its conservative array Q agrees with that of sU42. -/
def sU7 : States := { sZ with Uc := fun _ _ _ => 7 }

/-- Flat zero topography. -/
def tZ : Topography where
  centers := fun _ _ => 0
  xfcenters := fun _ _ => 0
  yfcenters := fun _ _ => 0

/-- Topography whose cell-center bed elevation 1 exceeds the zero surface
    elevation of sZ, making the center depth negative. -/
def tC : Topography := { tZ with centers := fun _ _ => 1 }

/-- Topography whose face bed elevation 1 exceeds the zero surface
    elevation of sZ, making every raw face depth negative. -/
def tF : Topography := { tZ with xfcenters := fun _ _ => 1, yfcenters := fun _ _ => 1 }

/-- Topography with face bed elevation -1, below the zero surface of sZ. -/
def tN : Topography := { tZ with xfcenters := fun _ _ => -1, yfcenters := fun _ _ => -1 }

/-- Baseline parameters theta = 1, drytol = 0, tol = 0. -/
def pZ : Params where
  theta := 1
  drytol := 0
  tol := 0

/-- Parameters with a positive dry tolerance drytol = 1/2. -/
def pD : Params := { pZ with drytol := 1/2 }

/-- Parameters with a positive rounding tolerance tol = 1. -/
def pT : Params := { pZ with tol := 1 }

/-- The constant component values of the flat state sZ. -/
def qZ : Fin 3 → ℚ := fun _ => 0

/-- Helper: the rounding-error kernel never returns a negative value when
    the tolerance is non-negative. -/
theorem fix_rounding_err_nonneg (d tol : ℚ) (h : 0 ≤ tol) :
    0 ≤ fix_rounding_err_kernel d tol := by
  unfold fix_rounding_err_kernel
  split
  · exact le_refl 0
  · exact le_trans h (not_lt.mp (by assumption))

/-- Helper: the minmod kernel returns 0 on three equal inputs, for every
    theta, because the final multiplication by the zero forward difference
    annihilates the clamped ratio. -/
theorem minmod_slope_flat (a theta : ℚ) : minmod_slope_kernel a a a theta = 0 := by
  simp [minmod_slope_kernel]

/-- Helper: the internal corrector is the identity when neither input
    depth is negative. -/
theorem correct_neg_depth_internal_id (hc hl hr : ℚ) (h1 : 0 ≤ hl) (h2 : 0 ≤ hr) :
    correct_neg_depth_internal hc hl hr = (hl, hr) := by
  unfold correct_neg_depth_internal
  rw [if_neg (not_lt.mpr h1), if_neg (not_lt.mpr h2)]

/-- Helper: the edge corrector is the identity on non-negative depths. -/
theorem correct_neg_depth_edge_id (h : ℚ) (h0 : 0 ≤ h) :
    correct_neg_depth_edge h = h := by
  unfold correct_neg_depth_edge
  rw [if_neg (not_lt.mpr h0)]

/-- C1: for every interior cell and each direction, if the positivity
    corrector fires (one of the two internal-facing face depths is
    negative before correction), then after correct_neg_depth_internal
    the average of the two corrected internal-facing face depths equals
    the pre-correction cell-center depth exactly: one side is set to 0
    and the other to twice the center depth. -/
theorem mass_conservation_on_fire (s : States) (t : Topography) (p : Params)
    (j i : ℤ) (hj0 : 0 ≤ j) (hj : j < s.ny) (hi0 : 0 ≤ i) (hi : i < s.nx) :
    (xp0raw s t p j i < 0 ∨ xm0raw s t p j (i + 1) < 0 →
      (xp0int s t p j i + xm0int s t p j (i + 1)) / 2 = Hnew s t j i ∧
      ((xp0int s t p j i = 0 ∧ xm0int s t p j (i + 1) = 2 * Hnew s t j i) ∨
       (xm0int s t p j (i + 1) = 0 ∧ xp0int s t p j i = 2 * Hnew s t j i))) ∧
    (yp0raw s t p j i < 0 ∨ ym0raw s t p (j + 1) i < 0 →
      (yp0int s t p j i + ym0int s t p (j + 1) i) / 2 = Hnew s t j i ∧
      ((yp0int s t p j i = 0 ∧ ym0int s t p (j + 1) i = 2 * Hnew s t j i) ∨
       (ym0int s t p (j + 1) i = 0 ∧ yp0int s t p j i = 2 * Hnew s t j i))) := by
  have hxp : xp0int s t p j i =
      (correct_neg_depth_internal (Hnew s t j i) (xp0raw s t p j i)
        (xm0raw s t p j (i + 1))).1 := by
    unfold xp0int
    rw [if_pos ⟨hi0, hi⟩]
  have hii : i + 1 - 1 = i := by ring
  have hxm : xm0int s t p j (i + 1) =
      (correct_neg_depth_internal (Hnew s t j i) (xp0raw s t p j i)
        (xm0raw s t p j (i + 1))).2 := by
    unfold xm0int
    rw [if_pos ⟨by omega, by omega⟩, hii]
  have hyp1 : yp0int s t p j i =
      (correct_neg_depth_internal (Hnew s t j i) (yp0raw s t p j i)
        (ym0raw s t p (j + 1) i)).1 := by
    unfold yp0int
    rw [if_pos ⟨hj0, hj⟩]
  have hjj : j + 1 - 1 = j := by ring
  have hym : ym0int s t p (j + 1) i =
      (correct_neg_depth_internal (Hnew s t j i) (yp0raw s t p j i)
        (ym0raw s t p (j + 1) i)).2 := by
    unfold ym0int
    rw [if_pos ⟨by omega, by omega⟩, hjj]
  constructor
  · intro fire
    rw [hxp, hxm]
    unfold correct_neg_depth_internal
    by_cases hl : xp0raw s t p j i < 0
    · rw [if_pos hl]
      refine ⟨by ring, Or.inl ⟨rfl, by ring⟩⟩
    · have hr : xm0raw s t p j (i + 1) < 0 := fire.resolve_left hl
      rw [if_neg hl, if_pos hr]
      refine ⟨by ring, Or.inr ⟨rfl, by ring⟩⟩
  · intro fire
    rw [hyp1, hym]
    unfold correct_neg_depth_internal
    by_cases hl : yp0raw s t p j i < 0
    · rw [if_pos hl]
      refine ⟨by ring, Or.inl ⟨rfl, by ring⟩⟩
    · have hr : ym0raw s t p (j + 1) i < 0 := fire.resolve_left hl
      rw [if_neg hl, if_pos hr]
      refine ⟨by ring, Or.inr ⟨rfl, by ring⟩⟩

/-- Witness for C1: on a 1x1 grid with zero state and face topography 1,
    both raw internal face depths are negative, the corrector fires in
    both directions, and the corrected pairs average to the center depth. -/
theorem mass_conservation_on_fire_witness :
    ((xp0int sZ tF pZ 0 0 + xm0int sZ tF pZ 0 (0 + 1)) / 2 = Hnew sZ tF 0 0 ∧
      ((xp0int sZ tF pZ 0 0 = 0 ∧ xm0int sZ tF pZ 0 (0 + 1) = 2 * Hnew sZ tF 0 0) ∨
       (xm0int sZ tF pZ 0 (0 + 1) = 0 ∧ xp0int sZ tF pZ 0 0 = 2 * Hnew sZ tF 0 0))) ∧
    ((yp0int sZ tF pZ 0 0 + ym0int sZ tF pZ (0 + 1) 0) / 2 = Hnew sZ tF 0 0 ∧
      ((yp0int sZ tF pZ 0 0 = 0 ∧ ym0int sZ tF pZ (0 + 1) 0 = 2 * Hnew sZ tF 0 0) ∨
       (ym0int sZ tF pZ (0 + 1) 0 = 0 ∧ yp0int sZ tF pZ 0 0 = 2 * Hnew sZ tF 0 0))) := by
  have h := mass_conservation_on_fire sZ tF pZ 0 0 (by decide) (by decide)
    (by decide) (by decide)
  refine ⟨h.1 (Or.inl ?_), h.2 (Or.inl ?_)⟩
  · norm_num [xp0raw, xpQ2, slpx, minmod_slope_kernel, sZ, tF, tZ, pZ,
      min_def, max_def]
  · norm_num [yp0raw, ypQ2, slpy, minmod_slope_kernel, sZ, tF, tZ, pZ,
      min_def, max_def]

/-- C2 counterexample: with non-negative tolerances, a zero state over
    center topography 1 leaves the cell-center depth H at -1 after the
    full reconstruction call, so not every depth is non-negative: the
    center depth is never corrected by the pipeline. -/
theorem center_depth_negative :
    0 ≤ pZ.tol ∧ 0 ≤ pZ.drytol ∧ (reconstruct sZ tC pZ).H 0 0 = -1 ∧
    (reconstruct sZ tC pZ).H 0 0 < 0 := by
  refine ⟨le_refl 0, le_refl 0, ?_, ?_⟩ <;>
    norm_num [reconstruct, Hnew, sZ, tC, tZ]

/-- C2 amended: after the full reconstruction call, all four face-depth
    arrays are non-negative for arbitrary inputs, provided tol is
    non-negative (the rounding fix clamps every value below tol to 0);
    the cell-center depth H carries no such guarantee. -/
theorem face_depths_nonneg (s : States) (t : Topography) (p : Params)
    (htol : 0 ≤ p.tol) (j i : ℤ) :
    0 ≤ (reconstruct s t p).xmU 0 j i ∧ 0 ≤ (reconstruct s t p).xpU 0 j i ∧
    0 ≤ (reconstruct s t p).ymU 0 j i ∧ 0 ≤ (reconstruct s t p).ypU 0 j i := by
  refine ⟨?_, ?_, ?_, ?_⟩ <;>
    simp only [reconstruct, xmUfinal, xpUfinal, ymUfinal, ypUfinal,
      xm0final, xp0final, ym0final, yp0final, if_pos rfl] <;>
    exact fix_rounding_err_nonneg _ _ htol

/-- Witness for C2 amended: all four face depths are non-negative on the
    concrete adverse input of the counterexample. -/
theorem face_depths_nonneg_witness :
    0 ≤ (reconstruct sZ tC pZ).xmU 0 0 0 ∧ 0 ≤ (reconstruct sZ tC pZ).xpU 0 0 0 ∧
    0 ≤ (reconstruct sZ tC pZ).ymU 0 0 0 ∧ 0 ≤ (reconstruct sZ tC pZ).ypU 0 0 0 :=
  face_depths_nonneg sZ tC pZ (le_refl 0) 0 0

/-- C3: after the full pipeline, every face in all four face arrays
    satisfies w = h + b, hu = h * u and hv = h * v exactly, with b the
    matching x- or y-face topography sample and h, u, v the corrected
    face depth and velocities. -/
theorem recombination_consistency (s : States) (t : Topography) (p : Params)
    (j i : ℤ) :
    ((reconstruct s t p).xmQ 0 j i = (reconstruct s t p).xmU 0 j i + t.xfcenters j i ∧
     (reconstruct s t p).xmQ 1 j i = (reconstruct s t p).xmU 0 j i * (reconstruct s t p).xmU 1 j i ∧
     (reconstruct s t p).xmQ 2 j i = (reconstruct s t p).xmU 0 j i * (reconstruct s t p).xmU 2 j i) ∧
    ((reconstruct s t p).xpQ 0 j i = (reconstruct s t p).xpU 0 j i + t.xfcenters j i ∧
     (reconstruct s t p).xpQ 1 j i = (reconstruct s t p).xpU 0 j i * (reconstruct s t p).xpU 1 j i ∧
     (reconstruct s t p).xpQ 2 j i = (reconstruct s t p).xpU 0 j i * (reconstruct s t p).xpU 2 j i) ∧
    ((reconstruct s t p).ymQ 0 j i = (reconstruct s t p).ymU 0 j i + t.yfcenters j i ∧
     (reconstruct s t p).ymQ 1 j i = (reconstruct s t p).ymU 0 j i * (reconstruct s t p).ymU 1 j i ∧
     (reconstruct s t p).ymQ 2 j i = (reconstruct s t p).ymU 0 j i * (reconstruct s t p).ymU 2 j i) ∧
    ((reconstruct s t p).ypQ 0 j i = (reconstruct s t p).ypU 0 j i + t.yfcenters j i ∧
     (reconstruct s t p).ypQ 1 j i = (reconstruct s t p).ypU 0 j i * (reconstruct s t p).ypU 1 j i ∧
     (reconstruct s t p).ypQ 2 j i = (reconstruct s t p).ypU 0 j i * (reconstruct s t p).ypU 2 j i) := by
  simp [reconstruct, xmQfinal, xpQfinal, ymQfinal, ypQfinal,
    recnstrt_face_conservatives]

/-- C4: for every face in all four face arrays, if the corrected face
    depth is strictly below drytol then both reconstructed face velocity
    components are exactly 0, regardless of the face momenta; otherwise
    each velocity is the stage-2 face momentum divided by the depth. -/
theorem dry_face_velocity (s : States) (t : Topography) (p : Params) (j i : ℤ) :
    (((reconstruct s t p).xmU 0 j i < p.drytol →
        (reconstruct s t p).xmU 1 j i = 0 ∧ (reconstruct s t p).xmU 2 j i = 0) ∧
     (¬ (reconstruct s t p).xmU 0 j i < p.drytol →
        (reconstruct s t p).xmU 1 j i = xmQ2 s p 1 j i / (reconstruct s t p).xmU 0 j i ∧
        (reconstruct s t p).xmU 2 j i = xmQ2 s p 2 j i / (reconstruct s t p).xmU 0 j i)) ∧
    (((reconstruct s t p).xpU 0 j i < p.drytol →
        (reconstruct s t p).xpU 1 j i = 0 ∧ (reconstruct s t p).xpU 2 j i = 0) ∧
     (¬ (reconstruct s t p).xpU 0 j i < p.drytol →
        (reconstruct s t p).xpU 1 j i = xpQ2 s p 1 j i / (reconstruct s t p).xpU 0 j i ∧
        (reconstruct s t p).xpU 2 j i = xpQ2 s p 2 j i / (reconstruct s t p).xpU 0 j i)) ∧
    (((reconstruct s t p).ymU 0 j i < p.drytol →
        (reconstruct s t p).ymU 1 j i = 0 ∧ (reconstruct s t p).ymU 2 j i = 0) ∧
     (¬ (reconstruct s t p).ymU 0 j i < p.drytol →
        (reconstruct s t p).ymU 1 j i = ymQ2 s p 1 j i / (reconstruct s t p).ymU 0 j i ∧
        (reconstruct s t p).ymU 2 j i = ymQ2 s p 2 j i / (reconstruct s t p).ymU 0 j i)) ∧
    (((reconstruct s t p).ypU 0 j i < p.drytol →
        (reconstruct s t p).ypU 1 j i = 0 ∧ (reconstruct s t p).ypU 2 j i = 0) ∧
     (¬ (reconstruct s t p).ypU 0 j i < p.drytol →
        (reconstruct s t p).ypU 1 j i = ypQ2 s p 1 j i / (reconstruct s t p).ypU 0 j i ∧
        (reconstruct s t p).ypU 2 j i = ypQ2 s p 2 j i / (reconstruct s t p).ypU 0 j i)) := by
  have hm : ∀ d hu hv dt : ℚ,
      (d < dt → (recnstrt_face_vel_kernel d hu hv dt).1 = 0 ∧
        (recnstrt_face_vel_kernel d hu hv dt).2 = 0) ∧
      (¬ d < dt → (recnstrt_face_vel_kernel d hu hv dt).1 = hu / d ∧
        (recnstrt_face_vel_kernel d hu hv dt).2 = hv / d) := by
    intro d hu hv dt
    unfold recnstrt_face_vel_kernel
    constructor <;> intro h <;> simp [h]
  exact ⟨⟨(hm _ _ _ _).1, (hm _ _ _ _).2⟩, ⟨(hm _ _ _ _).1, (hm _ _ _ _).2⟩,
    ⟨(hm _ _ _ _).1, (hm _ _ _ _).2⟩, ⟨(hm _ _ _ _).1, (hm _ _ _ _).2⟩⟩

/-- Witness for C4: on a dry input (zero depth, drytol = 1/2) the x-minus
    face velocities vanish, and on an all-wet input (depth 1) they equal
    momentum divided by depth. -/
theorem dry_face_velocity_witness :
    ((reconstruct sZ tZ pD).xmU 1 0 0 = 0 ∧ (reconstruct sZ tZ pD).xmU 2 0 0 = 0) ∧
    ((reconstruct sW tZ pD).xmU 1 0 0
        = xmQ2 sW pD 1 0 0 / (reconstruct sW tZ pD).xmU 0 0 0 ∧
     (reconstruct sW tZ pD).xmU 2 0 0
        = xmQ2 sW pD 2 0 0 / (reconstruct sW tZ pD).xmU 0 0 0) := by
  refine ⟨(dry_face_velocity sZ tZ pD 0 0).1.1 ?_,
    (dry_face_velocity sW tZ pD 0 0).1.2 ?_⟩ <;>
    norm_num [reconstruct, xmUfinal, xm0final, fix_rounding_err_kernel,
      xm0fixed, xm0int, xm0raw, xmQ2, slpx, minmod_slope_kernel,
      correct_neg_depth_edge, correct_neg_depth_internal, Hnew,
      sZ, sW, tZ, pZ, pD, min_def, max_def]

/-- C5 counterexample: with tol = 1, a uniform surface elevation of 1/2
    over flat topography leaves the cell-center depth at 1/2 after the
    call: it is strictly below tol yet not snapped to zero, so the
    snapping does not cover cell centers. -/
theorem center_depth_not_snapped :
    (reconstruct sH tZ pT).H 0 0 = 1/2 ∧ (reconstruct sH tZ pT).H 0 0 < pT.tol ∧
    (reconstruct sH tZ pT).H 0 0 ≠ 0 := by
  refine ⟨?_, ?_, ?_⟩ <;>
    norm_num [reconstruct, Hnew, sH, sZ, tZ, pT, pZ]

/-- C5 amended: after the positivity-correction steps, every face depth
    in the four face arrays that is strictly below tol is snapped to
    exactly zero, and the snapping operates on the corrected values
    (the post-correction stage values xm0fixed, xp0fixed, ym0fixed,
    yp0fixed); cell-center depths are not snapped. -/
theorem face_snap_after_correction (s : States) (t : Topography) (p : Params)
    (j i : ℤ) :
    ((reconstruct s t p).xmU 0 j i
        = if xm0fixed s t p j i < p.tol then 0 else xm0fixed s t p j i) ∧
    ((reconstruct s t p).xpU 0 j i
        = if xp0fixed s t p j i < p.tol then 0 else xp0fixed s t p j i) ∧
    ((reconstruct s t p).ymU 0 j i
        = if ym0fixed s t p j i < p.tol then 0 else ym0fixed s t p j i) ∧
    ((reconstruct s t p).ypU 0 j i
        = if yp0fixed s t p j i < p.tol then 0 else yp0fixed s t p j i) := by
  refine ⟨rfl, rfl, rfl, rfl⟩

/-- C6: for s1 le s2 le s3 and theta = 1 the slope returned by the minmod
    limiter kernel lies in the interval from 0 to (s3 - s1) / 2. -/
theorem minmod_slope_bound (s1 s2 s3 : ℚ) (h12 : s1 ≤ s2) (h23 : s2 ≤ s3) :
    0 ≤ minmod_slope_kernel s1 s2 s3 1 ∧
    minmod_slope_kernel s1 s2 s3 1 ≤ (s3 - s1) / 2 := by
  have key : minmod_slope_kernel s1 s2 s3 1 =
      max (min (min ((s2 - s1) / (s3 - s2) * 1) ((1 + (s2 - s1) / (s3 - s2)) / 2)) 1) 0
        * (s3 - s2) / 2 := rfl
  rw [key]
  set d := s3 - s2 with hd
  set r := (s2 - s1) / d with hr
  set m := max (min (min (r * 1) ((1 + r) / 2)) 1) 0 with hm
  clear_value m r d
  have hm0 : 0 ≤ m := hm ▸ le_max_right _ _
  have hm1 : m ≤ 1 := hm ▸ max_le (le_trans (min_le_right _ _) le_rfl) zero_le_one
  have hd0 : 0 ≤ d := by rw [hd]; linarith
  have h1 : m * d ≤ d := by nlinarith
  have h2 : d ≤ s3 - s1 := by rw [hd]; linarith
  constructor
  · positivity
  · linarith

/-- Witness for C6: the bound instantiated at the ordered triple 0, 0, 1. -/
theorem minmod_slope_bound_witness :
    0 ≤ minmod_slope_kernel 0 0 1 1 ∧ minmod_slope_kernel 0 0 1 1 ≤ (1 - 0) / 2 :=
  minmod_slope_bound 0 0 1 (by norm_num) (by norm_num)

/-- C7 counterexample: the state sZ has all center values equal (every
    entry of Q is 0), yet with face topography 1 the raw x-plus face
    depth is -1 and the positivity corrector fires and changes it to 0,
    so a flat field alone does not prevent the correction from
    triggering. -/
theorem flat_field_correction_fires :
    xp0raw sZ tF pZ 0 0 = -1 ∧ xp0fixed sZ tF pZ 0 0 = 0 ∧
    xp0fixed sZ tF pZ 0 0 ≠ xp0raw sZ tF pZ 0 0 := by
  refine ⟨?_, ?_, ?_⟩ <;>
    norm_num [xp0fixed, xp0int, xp0raw, xm0raw, xpQ2, xmQ2, slpx,
      minmod_slope_kernel, correct_neg_depth_internal, correct_neg_depth_edge,
      Hnew, sZ, tF, tZ, pZ, min_def, max_def]

/-- C7 amended: the limiter returns slope 0 on three equal values for
    every theta; when all cell-center values are equal in every
    component, the extrapolated minus and plus face values equal the
    center values at every face, and, provided the face topography
    nowhere exceeds the constant surface elevation (so that no raw face
    depth is negative), no positivity correction is triggered: the
    corrected face depths coincide with the raw face depths. -/
theorem flat_field_idempotence (s : States) (t : Topography) (p : Params)
    (q : Fin 3 → ℚ) (hQ : ∀ c j i, s.Q c j i = q c)
    (hx : ∀ j i, t.xfcenters j i ≤ q 0) (hy : ∀ j i, t.yfcenters j i ≤ q 0) :
    (∀ a theta, minmod_slope_kernel a a a theta = 0) ∧
    (∀ c j i, xmQ2 s p c j i = q c ∧ xpQ2 s p c j i = q c ∧
      ymQ2 s p c j i = q c ∧ ypQ2 s p c j i = q c) ∧
    (∀ j i, xp0fixed s t p j i = xp0raw s t p j i ∧
      xm0fixed s t p j i = xm0raw s t p j i ∧
      yp0fixed s t p j i = yp0raw s t p j i ∧
      ym0fixed s t p j i = ym0raw s t p j i) := by
  have hslx : ∀ c (j i : ℤ), slpx s p c j i = 0 := by
    intro c j i
    unfold slpx
    rw [hQ, hQ, hQ]
    exact minmod_slope_flat _ _
  have hsly : ∀ c (j i : ℤ), slpy s p c j i = 0 := by
    intro c j i
    unfold slpy
    rw [hQ, hQ, hQ]
    exact minmod_slope_flat _ _
  have hface : ∀ c (j i : ℤ), xmQ2 s p c j i = q c ∧ xpQ2 s p c j i = q c ∧
      ymQ2 s p c j i = q c ∧ ypQ2 s p c j i = q c := by
    intro c j i
    unfold xmQ2 xpQ2 ymQ2 ypQ2
    simp only [hslx, hsly, hQ]
    refine ⟨by ring, by ring, by ring, by ring⟩
  have hxm0 : ∀ j i : ℤ, 0 ≤ xm0raw s t p j i := by
    intro j i
    unfold xm0raw
    rw [(hface 0 j i).1]
    linarith [hx j i]
  have hxp0 : ∀ j i : ℤ, 0 ≤ xp0raw s t p j i := by
    intro j i
    unfold xp0raw
    rw [(hface 0 j i).2.1]
    linarith [hx j i]
  have hym0 : ∀ j i : ℤ, 0 ≤ ym0raw s t p j i := by
    intro j i
    unfold ym0raw
    rw [(hface 0 j i).2.2.1]
    linarith [hy j i]
  have hyp0 : ∀ j i : ℤ, 0 ≤ yp0raw s t p j i := by
    intro j i
    unfold yp0raw
    rw [(hface 0 j i).2.2.2]
    linarith [hy j i]
  have hxpint : ∀ j i : ℤ, xp0int s t p j i = xp0raw s t p j i := by
    intro j i
    unfold xp0int
    split
    · rw [correct_neg_depth_internal_id _ _ _ (hxp0 j i) (hxm0 j (i + 1))]
    · rfl
  have hxmint : ∀ j i : ℤ, xm0int s t p j i = xm0raw s t p j i := by
    intro j i
    unfold xm0int
    split
    · rw [correct_neg_depth_internal_id _ _ _ (hxp0 j (i - 1)) (hxm0 j i)]
    · rfl
  have hypint : ∀ j i : ℤ, yp0int s t p j i = yp0raw s t p j i := by
    intro j i
    unfold yp0int
    split
    · rw [correct_neg_depth_internal_id _ _ _ (hyp0 j i) (hym0 (j + 1) i)]
    · rfl
  have hymint : ∀ j i : ℤ, ym0int s t p j i = ym0raw s t p j i := by
    intro j i
    unfold ym0int
    split
    · rw [correct_neg_depth_internal_id _ _ _ (hyp0 (j - 1) i) (hym0 j i)]
    · rfl
  refine ⟨minmod_slope_flat, hface, fun j i => ⟨?_, ?_, ?_, ?_⟩⟩
  · unfold xp0fixed
    split
    · rw [hxpint, correct_neg_depth_edge_id _ (hxp0 j i)]
    · exact hxpint j i
  · unfold xm0fixed
    split
    · rw [hxmint, correct_neg_depth_edge_id _ (hxm0 j i)]
    · exact hxmint j i
  · unfold yp0fixed
    split
    · rw [hypint, correct_neg_depth_edge_id _ (hyp0 j i)]
    · exact hypint j i
  · unfold ym0fixed
    split
    · rw [hymint, correct_neg_depth_edge_id _ (hym0 j i)]
    · exact hymint j i

/-- Witness for C7 amended: the flat zero state over face topography -1
    keeps every face value at the center value and the correctors idle. -/
theorem flat_field_idempotence_witness :
    minmod_slope_kernel 3 3 3 2 = 0 ∧
    (xmQ2 sZ pZ 0 0 0 = qZ 0 ∧ xpQ2 sZ pZ 0 0 0 = qZ 0 ∧
     ymQ2 sZ pZ 0 0 0 = qZ 0 ∧ ypQ2 sZ pZ 0 0 0 = qZ 0) ∧
    (xp0fixed sZ tN pZ 0 0 = xp0raw sZ tN pZ 0 0 ∧
     xm0fixed sZ tN pZ 0 0 = xm0raw sZ tN pZ 0 0 ∧
     yp0fixed sZ tN pZ 0 0 = yp0raw sZ tN pZ 0 0 ∧
     ym0fixed sZ tN pZ 0 0 = ym0raw sZ tN pZ 0 0) := by
  have h := flat_field_idempotence sZ tN pZ qZ (fun _ _ _ => rfl)
    (fun _ _ => by norm_num [tN, tZ, qZ]) (fun _ _ => by norm_num [tN, tZ, qZ])
  exact ⟨h.1 3 2, h.2.1 0 0 0, h.2.2 0 0⟩

/-- C8 counterexample: two inputs with identical Q and identical
    topography but different center non-conservative caches yield
    different center caches after the call, so the cell-center
    non-conservative state is not fully recomputed from Q and
    topography: the center velocity fields are left untouched. -/
theorem center_velocity_not_recomputed :
    sU42.Q = sU7.Q ∧ (reconstruct sU42 tZ pZ).Uc 1 0 0 = 42 ∧
    (reconstruct sU7 tZ pZ).Uc 1 0 0 = 7 ∧
    (reconstruct sU42 tZ pZ).Uc 1 0 0 ≠ (reconstruct sU7 tZ pZ).Uc 1 0 0 := by
  refine ⟨rfl, rfl, rfl, ?_⟩
  show (42:ℚ) ≠ 7
  norm_num

/-- C8 amended: each reconstruction call fully recomputes the cell-center
    depth H from Q and topography (H = Q[0] at the interior cell minus
    the center bed elevation), while the center velocity fields of the
    non-conservative cache are not recomputed. -/
theorem center_depth_recomputed (s : States) (t : Topography) (p : Params) :
    (∀ j i : ℤ, (reconstruct s t p).H j i
        = s.Q 0 (s.ngh + j) (s.ngh + i) - t.centers j i) ∧
    (reconstruct s t p).Uc = s.Uc :=
  ⟨fun _ _ => rfl, rfl⟩

/-- C9: the reconstruction call never mutates the input conservative
    array Q: it writes only to H and the eight face buffers, so Q (and
    the untouched center cache and shape data) hold exactly their
    pre-call values after the call returns.  The three topography arrays
    are passed as a read-only argument and no stage of the embedded
    pipeline takes them as an output, mirroring that no kernel launch in
    the source writes to topo.centers, topo.xfcenters or topo.yfcenters. -/
theorem reconstruct_preserves_inputs (s : States) (t : Topography) (p : Params) :
    (reconstruct s t p).Q = s.Q ∧ (reconstruct s t p).Uc = s.Uc ∧
    (reconstruct s t p).ngh = s.ngh ∧ (reconstruct s t p).ny = s.ny ∧
    (reconstruct s t p).nx = s.nx :=
  ⟨rfl, rfl, rfl, rfl, rfl⟩

/-- C10: for every interior cell whose two internal-facing face depths
    are both non-negative before correction, the internal corrector
    leaves both face depths unchanged in each direction, and the
    cell-center depth after the call is still the step-1 value. -/
theorem corrector_identity_when_nonneg (s : States) (t : Topography) (p : Params)
    (j i : ℤ) (hj0 : 0 ≤ j) (hj : j < s.ny) (hi0 : 0 ≤ i) (hi : i < s.nx) :
    (0 ≤ xp0raw s t p j i → 0 ≤ xm0raw s t p j (i + 1) →
      xp0int s t p j i = xp0raw s t p j i ∧
      xm0int s t p j (i + 1) = xm0raw s t p j (i + 1)) ∧
    (0 ≤ yp0raw s t p j i → 0 ≤ ym0raw s t p (j + 1) i →
      yp0int s t p j i = yp0raw s t p j i ∧
      ym0int s t p (j + 1) i = ym0raw s t p (j + 1) i) ∧
    (reconstruct s t p).H j i = Hnew s t j i := by
  refine ⟨?_, ?_, rfl⟩
  · intro hl hr
    have hii : i + 1 - 1 = i := by ring
    unfold xp0int xm0int
    rw [if_pos ⟨hi0, hi⟩, if_pos ⟨by omega, by omega⟩, hii]
    unfold correct_neg_depth_internal
    rw [if_neg (not_lt.mpr hl), if_neg (not_lt.mpr hr)]
    exact ⟨rfl, rfl⟩
  · intro hl hr
    have hjj : j + 1 - 1 = j := by ring
    unfold yp0int ym0int
    rw [if_pos ⟨hj0, hj⟩, if_pos ⟨by omega, by omega⟩, hjj]
    unfold correct_neg_depth_internal
    rw [if_neg (not_lt.mpr hl), if_neg (not_lt.mpr hr)]
    exact ⟨rfl, rfl⟩

/-- Witness for C10: on the all-wet state over flat topography all raw
    face depths are 1, and the correctors leave them unchanged. -/
theorem corrector_identity_when_nonneg_witness :
    (xp0int sW tZ pZ 0 0 = xp0raw sW tZ pZ 0 0 ∧
     xm0int sW tZ pZ 0 (0 + 1) = xm0raw sW tZ pZ 0 (0 + 1)) ∧
    (yp0int sW tZ pZ 0 0 = yp0raw sW tZ pZ 0 0 ∧
     ym0int sW tZ pZ (0 + 1) 0 = ym0raw sW tZ pZ (0 + 1) 0) ∧
    (reconstruct sW tZ pZ).H 0 0 = Hnew sW tZ 0 0 := by
  have h := corrector_identity_when_nonneg sW tZ pZ 0 0 (by decide) (by decide)
    (by decide) (by decide)
  refine ⟨h.1 ?_ ?_, h.2.1 ?_ ?_, h.2.2⟩ <;>
    norm_num [xp0raw, xm0raw, yp0raw, ym0raw, xpQ2, xmQ2, ypQ2, ymQ2,
      slpx, slpy, minmod_slope_kernel, sW, sZ, tZ, pZ, min_def, max_def]
